import Mathlib

/-!
gospace: command dispatcher and manifest guard.

A shallow embedding of `main.go`: the `Command` interface, the `Common`
configuration, the dispatcher `main` and the wrapper `Exec` that snapshots
`go.mod` before a command runs and puts it back afterwards.

The file system, the standard-library path helpers and the case-folding table
are not part of the program text.  The file system is modelled as a finite
map from paths to files with owner permission bits; the library helpers are
collected in `StdLib` and every definition is parametric in them.
-/

namespace Gospace

/-! ## File system -/

/-- Contents of a file. -/
abbrev Bytes := List (Fin 256)

/-- A regular file: its contents and its permission bits. -/
structure File where
  data : Bytes
  mode : Nat
  deriving DecidableEq, Repr

/-- Owner-read bit of a mode. -/
def File.readable (f : File) : Bool := f.mode / 0o400 % 2 == 1

/-- Owner-write bit of a mode. -/
def File.writable (f : File) : Bool := f.mode / 0o200 % 2 == 1

/-- The file system: the first entry for a path is the file stored there. -/
abbrev FS := List (String × File)

/-- Errors of the file operations. -/
inductive IOErr where
  | notExist
  | permission
  deriving DecidableEq, Repr

deriving instance DecidableEq for Except

/-- File stored at a path, if any. -/
def FS.find (fs : FS) (name : String) : Option File :=
  match fs with
  | [] => none
  | (n, f) :: rest => if n = name then some f else FS.find rest name

/-- Replace (or create) the file stored at a path. -/
def FS.put (fs : FS) (name : String) (f : File) : FS :=
  match fs with
  | [] => [(name, f)]
  | (n, g) :: rest => if n = name then (n, f) :: rest else (n, g) :: FS.put rest name f

/-- Model of `ioutil.ReadFile`: the bytes of the file, or an error when the
path holds no file or the file may not be read. -/
def ReadFile (fs : FS) (filename : String) : Except IOErr Bytes :=
  match fs.find filename with
  | none => .error .notExist
  | some f => if f.readable then .ok f.data else .error .permission

/-- Model of `ioutil.WriteFile`: truncates and rewrites an existing writable
file keeping its mode, creates an absent one with mode `perm`, and fails,
leaving the file system alone, on a file that may not be written. -/
def WriteFile (fs : FS) (filename : String) (data : Bytes) (perm : Nat) : FS × Option IOErr :=
  match fs.find filename with
  | none => (fs.put filename { data := data, mode := perm }, none)
  | some f =>
    if f.writable then (fs.put filename { f with data := data }, none)
    else (fs, some .permission)

/-! ## Library helpers -/

/-- Standard-library functions used by the program. `fold` sends a character
to the representative of its simple case-folding orbit. -/
structure StdLib where
  Join : List String → String
  FromSlash : String → String
  Abs : String → String
  fold : Char → Char

/-- Model of `strings.EqualFold`: equality of the two strings under simple
case folding, character by character. -/
def EqualFold (L : StdLib) (s t : String) : Bool :=
  s.data.map L.fold == t.data.map L.fold

/-! ## Commands -/

/-- How a command's `Exec` ends: it returns, it panics, or it ends the
process with `os.Exit`; each carries the file system it leaves. -/
inductive Outcome where
  | returned (fs : FS)
  | panicked (fs : FS)
  | exited (code : Nat) (fs : FS)
  deriving DecidableEq, Repr

/-- File system left behind by an outcome. -/
def Outcome.fs : Outcome → FS
  | .returned fs => fs
  | .panicked fs => fs
  | .exited _ fs => fs

/-- The `Command` interface. `Parse` yields the error (`none` for `nil`);
`Exec` is given the arguments the receiver was parsed with and the current
file system. -/
structure Command where
  Name : String
  Parse : List String → Option String
  Exec : List String → FS → Outcome
  RepoDir : String

/-- The shared configuration. -/
structure Common where
  Root : String
  RootAbs : String
  Package : String
  Repo : String
  deriving DecidableEq, Repr

/-- Method `Path` of `Common`: the arguments joined under the absolute root. -/
def Common.Path (L : StdLib) (cmd : Common) (args : List String) : String :=
  L.Join ([cmd.RootAbs] ++ args)

/-- Method `RepoDir` of `Common`: the package directory under `src`. -/
def Common.RepoDir (L : StdLib) (cmd : Common) : String :=
  cmd.Path L ["src", L.FromSlash cmd.Package]

/-! ## The wrapper `Exec` -/

/-- File operations issued by the wrapper itself. -/
inductive FileOp where
  | read (filename : String)
  | write (filename : String) (data : Bytes) (perm : Nat)
  deriving DecidableEq, Repr

/-- Whether an operation is a write. -/
def FileOp.isWrite : FileOp → Bool
  | .read _ => false
  | .write _ _ _ => true

/-- The deferred function of `Exec`, run on the file system the command left:
the resulting file system and the operations issued. -/
def restore (gomodfilename : String) (gomod : Except IOErr Bytes) (fs : FS) : FS × List FileOp :=
  match gomod with
  | .error _ => (fs, [])
  | .ok gomod =>
    match ReadFile fs gomodfilename with
    | .ok gomodnew =>
      if gomodnew ≠ gomod then
        ((WriteFile fs gomodfilename gomod 0o644).1, [.read gomodfilename, .write gomodfilename gomod 0o644])
      else (fs, [.read gomodfilename])
    | .error _ => (fs, [.read gomodfilename])

/-- Result of the wrapper: how it ended and the file operations it issued. -/
structure Run where
  out : Outcome
  ops : List FileOp
  deriving DecidableEq, Repr

/-- The wrapper `Exec`. The deferred function runs when `cmd.Exec` returns
and when it panics; `os.Exit` ends the process without running it. -/
def Exec (L : StdLib) (cmd : Command) (args : List String) (fs : FS) : Run :=
  let gomodfilename := L.Join [cmd.RepoDir, "go.mod"]
  let gomod := ReadFile fs gomodfilename
  match cmd.Exec args fs with
  | .returned fs1 =>
    let r := restore gomodfilename gomod fs1
    { out := .returned r.1, ops := .read gomodfilename :: r.2 }
  | .panicked fs1 =>
    let r := restore gomodfilename gomod fs1
    { out := .panicked r.1, ops := .read gomodfilename :: r.2 }
  | .exited code fs1 =>
    { out := .exited code fs1, ops := [.read gomodfilename] }

/-! ## The dispatcher `main` -/

/-- The flag set after `set.Parse(os.Args[1:])`: the parse error, the three
values (flag, else environment) and the positional arguments. -/
structure FlagSet where
  err : Option String
  root : String
  pkg : String
  repo : String
  Args : List String

/-- How the process ends. -/
inductive Status where
  | exit (code : Nat)
  | panic
  deriving DecidableEq, Repr

/-- Method calls made on registered commands, by position in the registry. -/
inductive Call where
  | parse (i : Nat) (args : List String)
  | exec (i : Nat)
  deriving DecidableEq, Repr

/-- Position in the registry of the command a call was made on. -/
def Call.index : Call → Nat
  | .parse i _ => i
  | .exec i => i

/-- Whether a call is a call of `Exec`. -/
def Call.isExec : Call → Bool
  | .parse _ _ => false
  | .exec _ => true

/-- What a run of the program does: the lines written to standard error, the
exit status, the file system left, the calls made on commands and the file
operations of the wrapper. -/
structure Process where
  stderr : List String
  status : Status
  fs : FS
  calls : List Call
  ops : List FileOp
  deriving DecidableEq, Repr

/-- Line printed when the root directory is missing. -/
def msgRoot : String :=
  "root directory is missing, please specify `-root` or GOSPACE_ROOT environment variable"

/-- Line printed when the package name is missing. -/
def msgPackage : String :=
  "package name is missing, please specify `-pkg` or GOSPACE_PKG environment variable"

/-- Line printed when the repo name is missing. -/
def msgRepo : String :=
  "repo name is missing, please specify `-repo` or GOSPACE_REPO environment variable"

/-- The configuration check of `main`: the lines it prints and the final
value of `fail`. -/
def configCheck (common : Common) : List String × Bool :=
  let s0 : List String × Bool := ([], false)
  let s1 := if common.Root = "" then (s0.1 ++ [msgRoot], true) else s0
  let s2 := if common.Package = "" then (s1.1 ++ [msgPackage], true) else s1
  let s3 := if common.Repo = "" then (s2.1 ++ [msgRepo], true) else s2
  s3

/-- Status of the process after the wrapper ran a command. -/
def Outcome.status : Outcome → Status
  | .returned _ => .exit 0
  | .panicked _ => .panic
  | .exited code _ => .exit code

/-- The body of the registry loop for the command at position `i` whose name
matched: parse, then run through the wrapper. -/
def invoke (L : StdLib) (i : Nat) (cmd : Command) (args : List String) (fs : FS) : Process :=
  match cmd.Parse args with
  | some err =>
    { stderr := ["invalid args " ++ err], status := .exit 1, fs := fs,
      calls := [.parse i args], ops := [] }
  | none =>
    let r := Exec L cmd args fs
    { stderr := [], status := r.out.status, fs := r.out.fs,
      calls := [.parse i args, .exec i], ops := r.ops }

/-- The registry loop of `main` from position `i` on: `none` when the loop
runs to its end without a match. -/
def dispatch (L : StdLib) (cmdname : String) (args : List String) (fs : FS) :
    Nat → List Command → Option Process
  | _, [] => none
  | i, cmd :: rest =>
    if EqualFold L cmdname cmd.Name then some (invoke L i cmd args fs)
    else dispatch L cmdname args fs (i + 1) rest

/-- The configuration `main` builds from the flag set and hands to the
registry. -/
def FlagSet.common (L : StdLib) (set : FlagSet) : Common :=
  { Root := set.root, RootAbs := L.Abs set.root, Package := set.pkg, Repo := set.repo }

/-- The report printed when no command matched. -/
def unknownCommand (cmdname : String) (cmds : List Command) : List String :=
  ["unknown command: " ++ cmdname, "supported:"] ++ cmds.map (fun cmd => "\t" ++ cmd.Name)

/-- The program. `set` is the flag set after parsing, `registry` builds the
list of commands from the configuration. -/
def main (L : StdLib) (set : FlagSet) (registry : Common → List Command) (fs : FS) : Process :=
  match set.err with
  | some _ => { stderr := ["invalid args"], status := .exit 1, fs := fs, calls := [], ops := [] }
  | none =>
    let common : Common := { Root := set.root, RootAbs := "", Package := set.pkg, Repo := set.repo }
    let chk := configCheck common
    if chk.2 then
      { stderr := chk.1, status := .exit 1, fs := fs, calls := [], ops := [] }
    else
      let cmdname := set.Args.headD ""
      let args := if set.Args.length > 1 then set.Args.drop 1 else []
      let common := { common with RootAbs := L.Abs common.Root }
      let cmds := registry common
      match dispatch L cmdname args fs 0 cmds with
      | some p => p
      | none =>
        { stderr := unknownCommand cmdname cmds, status := .exit 1, fs := fs, calls := [], ops := [] }

/-! ## A concrete library and sample commands -/

/-- Unix flavour of the helpers, with ASCII case folding. -/
def unix : StdLib where
  Join := fun parts => "/".intercalate (parts.filter (fun p => p ≠ ""))
  FromSlash := fun p => p
  Abs := fun p => p
  fold := Char.toLower

/-- Sample configuration. -/
def sampleCommon : Common :=
  { Root := "/ws", RootAbs := "/ws", Package := "example.com/pkg", Repo := "example" }

/-- Path of the manifest under the sample configuration. -/
def manifest : String := "/ws/src/example.com/pkg/go.mod"

/-- A file system holding a manifest with three bytes. -/
def fsWithManifest : FS :=
  [("/ws/src/example.com/pkg/main.go", { data := [7], mode := 0o644 }),
   (manifest, { data := [1, 2, 3], mode := 0o644 })]

/-- A file system without a manifest. -/
def fsWithoutManifest : FS :=
  [("/ws/src/example.com/pkg/main.go", { data := [7], mode := 0o644 })]

/-- A command that rewrites the manifest and returns. -/
def cmdRewrite (common : Common) : Command :=
  { Name := "setup"
    Parse := fun args => if args = [] then none else some "unexpected argument"
    Exec := fun _ fs => .returned (WriteFile fs (unix.Join [common.RepoDir unix, "go.mod"]) [9, 9] 0o644).1
    RepoDir := common.RepoDir unix }

/-- A command that removes the manifest and returns. -/
def cmdRemove (common : Common) : Command :=
  { Name := "update"
    Parse := fun _ => none
    Exec := fun _ fs => .returned (fs.filter (fun e => e.1 ≠ unix.Join [common.RepoDir unix, "go.mod"]))
    RepoDir := common.RepoDir unix }

/-- A command that leaves every file alone. -/
def cmdHash (common : Common) : Command :=
  { Name := "hash"
    Parse := fun _ => none
    Exec := fun _ fs => .returned fs
    RepoDir := common.RepoDir unix }

/-- A command that rewrites the manifest and then ends the process. -/
def cmdExit (common : Common) : Command :=
  { Name := "istidy"
    Parse := fun _ => none
    Exec := fun _ fs => .exited 1 (WriteFile fs (unix.Join [common.RepoDir unix, "go.mod"]) [9, 9] 0o644).1
    RepoDir := common.RepoDir unix }

/-- A command that rewrites the manifest and then panics. -/
def cmdPanic (common : Common) : Command :=
  { Name := "zipvendor"
    Parse := fun _ => none
    Exec := fun _ fs => .panicked (WriteFile fs (unix.Join [common.RepoDir unix, "go.mod"]) [9, 9] 0o644).1
    RepoDir := common.RepoDir unix }

/-- A command with an empty name. -/
def cmdNameless (common : Common) : Command :=
  { Name := ""
    Parse := fun _ => none
    Exec := fun _ fs => .returned fs
    RepoDir := common.RepoDir unix }

/-- A sample registry. -/
def sampleRegistry (common : Common) : List Command :=
  [cmdRewrite common, cmdRemove common, cmdExit common, cmdHash common, cmdPanic common]

/-- A registry whose second command has an empty name. -/
def namelessRegistry (common : Common) : List Command :=
  [cmdRewrite common, cmdNameless common]

/-- Sample flag set asking for a command by name. -/
def sampleFlags (name : String) : FlagSet :=
  { err := none, root := "/ws", pkg := "example.com/pkg", repo := "example", Args := [name] }

/-! ## Facts about the file system -/

theorem FS.find_put (fs : FS) (name : String) (f : File) :
    (fs.put name f).find name = some f := by
  induction fs with
  | nil => simp [FS.put, FS.find]
  | cons e rest ih =>
    obtain ⟨n, g⟩ := e
    by_cases h : n = name
    · simp [FS.put, FS.find, h]
    · simp [FS.put, FS.find, h, ih]

theorem ReadFile_ok_find {fs : FS} {name : String} {b : Bytes} (h : ReadFile fs name = .ok b) :
    ∃ f, fs.find name = some f ∧ f.readable = true ∧ f.data = b := by
  unfold ReadFile at h
  cases hf : fs.find name with
  | none => simp [hf] at h
  | some f =>
    simp only [hf] at h
    by_cases hr : f.readable = true
    · simp only [hr, if_true] at h
      exact ⟨f, rfl, hr, by injection h⟩
    · simp [hr] at h

theorem ReadFile_WriteFile {fs : FS} {name : String} {b1 b : Bytes} {perm : Nat}
    (hread : ReadFile fs name = .ok b1) (hwrite : (WriteFile fs name b perm).2 = none) :
    ReadFile (WriteFile fs name b perm).1 name = .ok b := by
  obtain ⟨f, hf, hr, -⟩ := ReadFile_ok_find hread
  unfold WriteFile at hwrite ⊢
  simp only [hf] at hwrite ⊢
  by_cases hw : f.writable = true
  · simp only [hw, if_true]
    unfold ReadFile
    rw [FS.find_put]
    have : File.readable { f with data := b } = true := hr
    simp [this]
  · simp [hw] at hwrite

theorem restore_ops_no_write {name : String} {b : Bytes} {fs : FS}
    (h : ReadFile fs name = .ok b) : restore name (.ok b) fs = (fs, [.read name]) := by
  simp [restore, h]

/-! ## The wrapper: restoring the manifest -/

/-- C1, as stated, fails: the sample file system holds a readable manifest, the
command removes it and returns, and after `Exec` has returned the manifest is
still absent instead of holding the original bytes. -/
theorem Exec_removed_manifest_not_restored :
    ReadFile fsWithManifest (unix.Join [(cmdRemove sampleCommon).RepoDir, "go.mod"]) = .ok [1, 2, 3] ∧
    (∃ fs1, (cmdRemove sampleCommon).Exec [] fsWithManifest = .returned fs1 ∧
      ReadFile fs1 (unix.Join [(cmdRemove sampleCommon).RepoDir, "go.mod"]) ≠ .ok [1, 2, 3]) ∧
    (∃ fs2, (Exec unix (cmdRemove sampleCommon) [] fsWithManifest).out = .returned fs2 ∧
      ReadFile fs2 (unix.Join [(cmdRemove sampleCommon).RepoDir, "go.mod"]) = .error .notExist) ∧
    ReadFile (Exec unix (cmdRemove sampleCommon) [] fsWithManifest).out.fs
      (unix.Join [(cmdRemove sampleCommon).RepoDir, "go.mod"]) ≠ .ok [1, 2, 3] := by
  refine ⟨by decide, ⟨_, rfl, by decide⟩, ⟨_, rfl, by decide⟩, by decide⟩

/-- C1, amended: when the manifest is readable with bytes `b` before the
command, the command returns leaving the manifest readable with other bytes,
and the rewrite of the manifest succeeds, then after `Exec` has returned the
manifest holds exactly `b` again. -/
theorem Exec_restores_changed_manifest (L : StdLib) (cmd : Command) (args : List String)
    (fs fs1 : FS) (b b1 : Bytes)
    (hsnap : ReadFile fs (L.Join [cmd.RepoDir, "go.mod"]) = .ok b)
    (hrun : cmd.Exec args fs = .returned fs1)
    (hreread : ReadFile fs1 (L.Join [cmd.RepoDir, "go.mod"]) = .ok b1)
    (hchanged : b1 ≠ b)
    (hwrite : (WriteFile fs1 (L.Join [cmd.RepoDir, "go.mod"]) b 0o644).2 = none) :
    (Exec L cmd args fs).out =
        .returned (WriteFile fs1 (L.Join [cmd.RepoDir, "go.mod"]) b 0o644).1 ∧
      ReadFile (Exec L cmd args fs).out.fs (L.Join [cmd.RepoDir, "go.mod"]) = .ok b := by
  have hout : (Exec L cmd args fs).out =
      .returned (WriteFile fs1 (L.Join [cmd.RepoDir, "go.mod"]) b 0o644).1 := by
    simp [Exec, hrun, hsnap, restore, hreread, hchanged]
  refine ⟨hout, ?_⟩
  rw [hout]
  exact ReadFile_WriteFile hreread hwrite

theorem Exec_restores_changed_manifest_witness :
    ReadFile fsWithManifest (unix.Join [(cmdRewrite sampleCommon).RepoDir, "go.mod"]) = .ok [1, 2, 3] ∧
    ReadFile (Exec unix (cmdRewrite sampleCommon) [] fsWithManifest).out.fs
      (unix.Join [(cmdRewrite sampleCommon).RepoDir, "go.mod"]) = .ok [1, 2, 3] :=
  ⟨by decide,
   (Exec_restores_changed_manifest unix (cmdRewrite sampleCommon) [] fsWithManifest
      (WriteFile fsWithManifest manifest [9, 9] 0o644).1 [1, 2, 3] [9, 9]
      (by decide) (by decide) (by decide) (by decide) (by decide)).2⟩

/-- C2: when the manifest is readable before the command and the command, however
it ends, leaves it readable with the same bytes, `Exec` issues no write and
ends exactly as the command did, on the file system the command left. -/
theorem Exec_unchanged_manifest_no_write (L : StdLib) (cmd : Command) (args : List String)
    (fs : FS) (b : Bytes)
    (hsnap : ReadFile fs (L.Join [cmd.RepoDir, "go.mod"]) = .ok b)
    (hsame : ReadFile (cmd.Exec args fs).fs (L.Join [cmd.RepoDir, "go.mod"]) = .ok b) :
    (Exec L cmd args fs).out = cmd.Exec args fs ∧
      (Exec L cmd args fs).out.fs = (cmd.Exec args fs).fs ∧
      ∀ op ∈ (Exec L cmd args fs).ops, op.isWrite = false := by
  cases hrun : cmd.Exec args fs with
  | returned fs1 =>
    have hsame1 : ReadFile fs1 (L.Join [cmd.RepoDir, "go.mod"]) = .ok b := by
      simpa [hrun, Outcome.fs] using hsame
    simp [Exec, hrun, hsnap, restore_ops_no_write hsame1, Outcome.fs, FileOp.isWrite]
  | panicked fs1 =>
    have hsame1 : ReadFile fs1 (L.Join [cmd.RepoDir, "go.mod"]) = .ok b := by
      simpa [hrun, Outcome.fs] using hsame
    simp [Exec, hrun, hsnap, restore_ops_no_write hsame1, Outcome.fs, FileOp.isWrite]
  | exited code fs1 =>
    simp [Exec, hrun, Outcome.fs, FileOp.isWrite]

theorem Exec_unchanged_manifest_no_write_witness :
    ReadFile fsWithManifest (unix.Join [(cmdHash sampleCommon).RepoDir, "go.mod"]) = .ok [1, 2, 3] ∧
    (Exec unix (cmdHash sampleCommon) [] fsWithManifest).out = .returned fsWithManifest ∧
    ∀ op ∈ (Exec unix (cmdHash sampleCommon) [] fsWithManifest).ops, op.isWrite = false :=
  ⟨by decide,
   (Exec_unchanged_manifest_no_write unix (cmdHash sampleCommon) [] fsWithManifest [1, 2, 3]
      (by decide) (by decide)).1,
   (Exec_unchanged_manifest_no_write unix (cmdHash sampleCommon) [] fsWithManifest [1, 2, 3]
      (by decide) (by decide)).2.2⟩

/-- C3: when the first read of the manifest fails, `Exec` attempts no
restoration whatever the command does: its only file operation is that first
read, it issues no write, and it ends exactly as the command did, on the file
system the command left. -/
theorem Exec_unreadable_manifest_no_restore (L : StdLib) (cmd : Command) (args : List String)
    (fs : FS) (e : IOErr)
    (hsnap : ReadFile fs (L.Join [cmd.RepoDir, "go.mod"]) = .error e) :
    (Exec L cmd args fs).out = cmd.Exec args fs ∧
      (Exec L cmd args fs).out.fs = (cmd.Exec args fs).fs ∧
      (Exec L cmd args fs).ops = [.read (L.Join [cmd.RepoDir, "go.mod"])] ∧
      ∀ op ∈ (Exec L cmd args fs).ops, op.isWrite = false := by
  cases hrun : cmd.Exec args fs <;>
    simp [Exec, hrun, hsnap, restore, Outcome.fs, FileOp.isWrite]

theorem Exec_unreadable_manifest_no_restore_witness :
    ReadFile fsWithoutManifest (unix.Join [(cmdRewrite sampleCommon).RepoDir, "go.mod"]) =
      .error .notExist ∧
    ReadFile (Exec unix (cmdRewrite sampleCommon) [] fsWithoutManifest).out.fs manifest = .ok [9, 9] ∧
    (Exec unix (cmdRewrite sampleCommon) [] fsWithoutManifest).out =
      (cmdRewrite sampleCommon).Exec [] fsWithoutManifest :=
  ⟨by decide, by decide,
   (Exec_unreadable_manifest_no_restore unix (cmdRewrite sampleCommon) [] fsWithoutManifest
      .notExist (by decide)).1⟩

/-! ## The wrapper: exit paths -/

/-- C4, as stated, fails: the first read of the manifest succeeds, the command
rewrites the manifest and ends the process with `os.Exit`; the wrapper's only
file operation is the first read, so no re-read, comparison or rewrite takes
place, and the rewritten manifest stays although it is readable and writable. -/
theorem Exec_exit_skips_restoration_check :
    ReadFile fsWithManifest (unix.Join [(cmdExit sampleCommon).RepoDir, "go.mod"]) = .ok [1, 2, 3] ∧
    (∃ fs1, (cmdExit sampleCommon).Exec [] fsWithManifest = .exited 1 fs1) ∧
    (Exec unix (cmdExit sampleCommon) [] fsWithManifest).ops =
      [.read (unix.Join [(cmdExit sampleCommon).RepoDir, "go.mod"])] ∧
    ReadFile (Exec unix (cmdExit sampleCommon) [] fsWithManifest).out.fs
      (unix.Join [(cmdExit sampleCommon).RepoDir, "go.mod"]) = .ok [9, 9] ∧
    (WriteFile (Exec unix (cmdExit sampleCommon) [] fsWithManifest).out.fs
      (unix.Join [(cmdExit sampleCommon).RepoDir, "go.mod"]) [1, 2, 3] 0o644).2 = none := by
  refine ⟨by decide, ⟨_, rfl⟩, by decide, by decide, by decide⟩

/-- C4, amended: whenever the first read of the manifest succeeded with bytes
`b`, the restoration check runs when the command returns and when it panics.
In both cases the wrapper ends the way the command did, re-reads the manifest
right after its first read, writes `b` back exactly when the re-read succeeds
with other bytes, and otherwise leaves the file system as the command left it.
When the command ends the process itself the check does not run. -/
theorem Exec_restoration_check_on_return_and_panic (L : StdLib) (cmd : Command)
    (args : List String) (fs : FS) (b : Bytes)
    (hsnap : ReadFile fs (L.Join [cmd.RepoDir, "go.mod"]) = .ok b) :
    (∀ fs1, cmd.Exec args fs = .returned fs1 ∨ cmd.Exec args fs = .panicked fs1 →
      ((Exec L cmd args fs).out.status = (cmd.Exec args fs).status) ∧
      (Exec L cmd args fs).ops.take 2 =
        [.read (L.Join [cmd.RepoDir, "go.mod"]), .read (L.Join [cmd.RepoDir, "go.mod"])] ∧
      (∀ b1, ReadFile fs1 (L.Join [cmd.RepoDir, "go.mod"]) = .ok b1 → b1 ≠ b →
        (Exec L cmd args fs).out.fs = (WriteFile fs1 (L.Join [cmd.RepoDir, "go.mod"]) b 0o644).1 ∧
        (Exec L cmd args fs).ops.drop 2 = [.write (L.Join [cmd.RepoDir, "go.mod"]) b 0o644]) ∧
      (ReadFile fs1 (L.Join [cmd.RepoDir, "go.mod"]) = .ok b →
        (Exec L cmd args fs).out.fs = fs1 ∧ (Exec L cmd args fs).ops.drop 2 = []) ∧
      (∀ e, ReadFile fs1 (L.Join [cmd.RepoDir, "go.mod"]) = .error e →
        (Exec L cmd args fs).out.fs = fs1 ∧ (Exec L cmd args fs).ops.drop 2 = [])) ∧
    (∀ code fs1, cmd.Exec args fs = .exited code fs1 →
      (Exec L cmd args fs).out = .exited code fs1 ∧
      (Exec L cmd args fs).ops = [.read (L.Join [cmd.RepoDir, "go.mod"])]) := by
  constructor
  · intro fs1 hrun
    have key : (Exec L cmd args fs).out.fs = (restore (L.Join [cmd.RepoDir, "go.mod"]) (.ok b) fs1).1 ∧
        (Exec L cmd args fs).ops = .read (L.Join [cmd.RepoDir, "go.mod"]) ::
          (restore (L.Join [cmd.RepoDir, "go.mod"]) (.ok b) fs1).2 ∧
        (Exec L cmd args fs).out.status = (cmd.Exec args fs).status := by
      rcases hrun with hrun | hrun <;> simp [Exec, hrun, hsnap, Outcome.fs, Outcome.status]
    obtain ⟨kfs, kops, kst⟩ := key
    refine ⟨kst, ?_, ?_, ?_, ?_⟩
    · rw [kops]
      cases hre : ReadFile fs1 (L.Join [cmd.RepoDir, "go.mod"]) with
      | error e => simp [restore, hre]
      | ok b1 =>
        by_cases hb : b1 = b
        · simp [restore, hre, hb]
        · simp [restore, hre, hb]
    · intro b1 hre hb
      rw [kfs, kops]
      simp [restore, hre, hb]
    · intro hre
      rw [kfs, kops]
      simp [restore, hre]
    · intro e hre
      rw [kfs, kops]
      simp [restore, hre]
  · intro code fs1 hrun
    simp [Exec, hrun]

theorem Exec_restoration_check_on_return_and_panic_witness :
    ReadFile fsWithManifest (unix.Join [(cmdPanic sampleCommon).RepoDir, "go.mod"]) = .ok [1, 2, 3] ∧
    (Exec unix (cmdPanic sampleCommon) [] fsWithManifest).ops.take 2 =
      [.read (unix.Join [(cmdPanic sampleCommon).RepoDir, "go.mod"]),
       .read (unix.Join [(cmdPanic sampleCommon).RepoDir, "go.mod"])] ∧
    (Exec unix (cmdPanic sampleCommon) [] fsWithManifest).out = .panicked fsWithManifest :=
  ⟨by decide,
   ((Exec_restoration_check_on_return_and_panic unix (cmdPanic sampleCommon) [] fsWithManifest
      [1, 2, 3] (by decide)).1 (WriteFile fsWithManifest manifest [9, 9] 0o644).1
      (Or.inr (by decide))).2.1,
   by decide⟩

/-! ## Facts about the dispatcher -/

theorem configCheck_fail (common : Common) :
    (configCheck common).2 = true ↔ common.Root = "" ∨ common.Package = "" ∨ common.Repo = "" := by
  unfold configCheck
  by_cases h1 : common.Root = "" <;> by_cases h2 : common.Package = "" <;>
    by_cases h3 : common.Repo = "" <;> simp [h1, h2, h3]

theorem configCheck_lines (common : Common) :
    (configCheck common).1 =
      (if common.Root = "" then [msgRoot] else []) ++
      (if common.Package = "" then [msgPackage] else []) ++
      (if common.Repo = "" then [msgRepo] else []) := by
  unfold configCheck
  by_cases h1 : common.Root = "" <;> by_cases h2 : common.Package = "" <;>
    by_cases h3 : common.Repo = "" <;> simp [h1, h2, h3]

theorem drop_one_of_args (l : List String) :
    (if l.length > 1 then l.drop 1 else []) = l.drop 1 := by
  rcases l with _ | ⟨a, _ | ⟨b, t⟩⟩ <;> simp

theorem main_of_config (L : StdLib) (set : FlagSet) (registry : Common → List Command) (fs : FS)
    (hok : set.err = none) (hroot : set.root ≠ "") (hpkg : set.pkg ≠ "") (hrepo : set.repo ≠ "") :
    main L set registry fs =
      match dispatch L (set.Args.headD "") (set.Args.drop 1) fs 0 (registry (set.common L)) with
      | some p => p
      | none =>
        { stderr := unknownCommand (set.Args.headD "") (registry (set.common L)),
          status := .exit 1, fs := fs, calls := [], ops := [] } := by
  have hchk : (configCheck (set.common L)).2 = false := by
    cases h : (configCheck (set.common L)).2 with
    | false => rfl
    | true =>
      rcases (configCheck_fail _).1 h with h1 | h1 | h1
      · exact absurd h1 hroot
      · exact absurd h1 hpkg
      · exact absurd h1 hrepo
  have hchk2 : (configCheck { Root := set.root, RootAbs := "", Package := set.pkg,
                              Repo := set.repo }).2 = false := hchk
  simp only [main, hok, hchk2, drop_one_of_args]
  rfl

theorem main_of_missing (L : StdLib) (set : FlagSet) (registry : Common → List Command) (fs : FS)
    (hok : set.err = none) (h : set.root = "" ∨ set.pkg = "" ∨ set.repo = "") :
    main L set registry fs =
      { stderr := (configCheck (set.common L)).1,
        status := .exit 1, fs := fs, calls := [], ops := [] } := by
  have hchk : (configCheck (set.common L)).2 = true := (configCheck_fail _).2 h
  have hchk2 : (configCheck { Root := set.root, RootAbs := "", Package := set.pkg,
                              Repo := set.repo }).2 = true := hchk
  simp only [main, hok, hchk2]
  rfl

theorem dispatch_none (L : StdLib) (cmdname : String) (args : List String) (fs : FS) :
    ∀ (cmds : List Command) (k : Nat),
      (∀ cmd ∈ cmds, EqualFold L cmdname cmd.Name = false) →
      dispatch L cmdname args fs k cmds = none := by
  intro cmds
  induction cmds with
  | nil => intro k _; rfl
  | cons c rest ih =>
    intro k h
    have hc : EqualFold L cmdname c.Name = false := h c (List.mem_cons_self _ _)
    simp only [dispatch, hc]
    exact ih (k + 1) (fun cmd hm => h cmd (List.mem_cons_of_mem _ hm))

theorem dispatch_first (L : StdLib) (cmdname : String) (args : List String) (fs : FS) :
    ∀ (cmds : List Command) (k i : Nat) (cmd : Command),
      cmds[i]? = some cmd → EqualFold L cmdname cmd.Name = true →
      (∀ j c, j < i → cmds[j]? = some c → EqualFold L cmdname c.Name = false) →
      dispatch L cmdname args fs k cmds = some (invoke L (k + i) cmd args fs) := by
  intro cmds
  induction cmds with
  | nil => intro k i cmd h; simp at h
  | cons c rest ih =>
    intro k i cmd hi hm hb
    cases i with
    | zero =>
      simp only [List.getElem?_cons_zero, Option.some.injEq] at hi
      subst hi
      simp [dispatch, hm]
    | succ i =>
      have hc : EqualFold L cmdname c.Name = false := hb 0 c (Nat.succ_pos i) (by simp)
      simp only [List.getElem?_cons_succ] at hi
      simp only [dispatch, hc]
      have := ih (k + 1) i cmd hi hm (fun j c2 hj hc2 => hb (j + 1) c2 (Nat.succ_lt_succ hj) (by simpa using hc2))
      have e : k + 1 + i = k + (i + 1) := by omega
      rw [this, e]
      simp

theorem EqualFold_congr (L : StdLib) {a b : String} (h : EqualFold L a b = true) (n : String) :
    EqualFold L a n = EqualFold L b n := by
  unfold EqualFold at *
  have h2 : a.data.map L.fold = b.data.map L.fold := by simpa using h
  rw [h2]

theorem dispatch_congr (L : StdLib) {a b : String} (h : EqualFold L a b = true)
    (args : List String) (fs : FS) :
    ∀ (cmds : List Command) (k : Nat),
      dispatch L a args fs k cmds = dispatch L b args fs k cmds := by
  intro cmds
  induction cmds with
  | nil => intro k; rfl
  | cons c rest ih =>
    intro k
    simp only [dispatch, EqualFold_congr L h c.Name, ih (k + 1)]

theorem EqualFold_empty (L : StdLib) {n : String} (h : EqualFold L "" n = true) : n = "" := by
  unfold EqualFold at h
  have h2 : n.data = [] := by simpa using h
  exact String.ext h2

theorem main_of_flag_error (L : StdLib) (set : FlagSet) (registry : Common → List Command)
    (fs : FS) (e : String) (herr : set.err = some e) :
    main L set registry fs =
      { stderr := ["invalid args"], status := .exit 1, fs := fs, calls := [], ops := [] } := by
  simp only [main, herr]

theorem main_gate (L : StdLib) (set : FlagSet) (registry : Common → List Command) (fs : FS)
    (h : set.root = "" ∨ set.pkg = "" ∨ set.repo = "") :
    (main L set registry fs).status = .exit 1 ∧ (main L set registry fs).calls = [] ∧
      (main L set registry fs).ops = [] ∧ (main L set registry fs).fs = fs ∧
      ∀ registry2, main L set registry2 fs = main L set registry fs := by
  cases herr : set.err with
  | some e =>
    refine ⟨?_, ?_, ?_, ?_, ?_⟩ <;> try simp [main_of_flag_error L set _ fs e herr]
  | none =>
    refine ⟨?_, ?_, ?_, ?_, ?_⟩ <;> try simp [main_of_missing L set _ fs herr h]

theorem msgRoot_ne_msgPackage : msgRoot ≠ msgPackage := by decide

theorem msgRoot_ne_msgRepo : msgRoot ≠ msgRepo := by decide

theorem msgPackage_ne_msgRepo : msgPackage ≠ msgRepo := by decide

/-! ## The configuration gate -/

/-- C5: when any of root, package and repo is empty the process ends with exit
status 1 without calling `Parse` or `Exec` on any command, without touching
the file system, and whatever the registry holds; so a run in which a command
is called has all three values non-empty. -/
theorem main_dispatch_only_with_full_config (L : StdLib) (set : FlagSet)
    (registry : Common → List Command) (fs : FS) :
    ((set.root = "" ∨ set.pkg = "" ∨ set.repo = "") →
      (main L set registry fs).status = .exit 1 ∧ (main L set registry fs).calls = [] ∧
      (main L set registry fs).ops = [] ∧ (main L set registry fs).fs = fs ∧
      ∀ registry2, main L set registry2 fs = main L set registry fs) ∧
    ((main L set registry fs).calls ≠ [] →
      set.root ≠ "" ∧ set.pkg ≠ "" ∧ set.repo ≠ "") := by
  refine ⟨main_gate L set registry fs, ?_⟩
  intro hcalls
  refine ⟨?_, ?_, ?_⟩ <;> intro hempty
  · exact hcalls (main_gate L set registry fs (Or.inl hempty)).2.1
  · exact hcalls (main_gate L set registry fs (Or.inr (Or.inl hempty))).2.1
  · exact hcalls (main_gate L set registry fs (Or.inr (Or.inr hempty))).2.1

theorem main_dispatch_only_with_full_config_witness :
    (main unix { sampleFlags "setup" with pkg := "" } sampleRegistry fsWithManifest).status = .exit 1 ∧
    (main unix { sampleFlags "setup" with pkg := "" } sampleRegistry fsWithManifest).calls = [] ∧
    ((main unix (sampleFlags "setup") sampleRegistry fsWithManifest).calls ≠ [] ∧
      (sampleFlags "setup").root ≠ "") :=
  ⟨((main_dispatch_only_with_full_config unix { sampleFlags "setup" with pkg := "" }
      sampleRegistry fsWithManifest).1 (Or.inr (Or.inl rfl))).1,
   ((main_dispatch_only_with_full_config unix { sampleFlags "setup" with pkg := "" }
      sampleRegistry fsWithManifest).1 (Or.inr (Or.inl rfl))).2.1,
   by decide,
   ((main_dispatch_only_with_full_config unix (sampleFlags "setup")
      sampleRegistry fsWithManifest).2 (by decide)).1⟩

/-- C6: the configuration check prints the message of a field exactly when that
field is empty: the three fields are tested independently, the messages of
all empty fields appear once each in the order root, package, repo, each
message starts with the name of its own field, and when the flags parsed and
some field is empty these lines are all that the program writes to standard
error. -/
theorem configCheck_reports_each_missing_field (common : Common) :
    (msgRoot ∈ (configCheck common).1 ↔ common.Root = "") ∧
    (msgPackage ∈ (configCheck common).1 ↔ common.Package = "") ∧
    (msgRepo ∈ (configCheck common).1 ↔ common.Repo = "") ∧
    List.Sublist (configCheck common).1 [msgRoot, msgPackage, msgRepo] ∧
    (List.IsPrefix "root".data msgRoot.data ∧ List.IsPrefix "package".data msgPackage.data ∧
      List.IsPrefix "repo".data msgRepo.data) ∧
    ((configCheck common).2 = true ↔
      common.Root = "" ∨ common.Package = "" ∨ common.Repo = "") ∧
    (∀ (L : StdLib) (set : FlagSet) (registry : Common → List Command) (fs : FS),
      set.err = none → set.common L = common → (configCheck common).2 = true →
      (main L set registry fs).stderr = (configCheck common).1 ∧
      (main L set registry fs).status = .exit 1) := by
  have n1 := msgRoot_ne_msgPackage
  have n2 := msgRoot_ne_msgRepo
  have n3 := msgPackage_ne_msgRepo
  refine ⟨?_, ?_, ?_, ?_, ⟨by decide, by decide, by decide⟩, configCheck_fail common, ?_⟩
  · rw [configCheck_lines]
    by_cases h1 : common.Root = "" <;> by_cases h2 : common.Package = "" <;>
      by_cases h3 : common.Repo = "" <;> simp [h1, h2, h3, n1, n2]
  · rw [configCheck_lines]
    by_cases h1 : common.Root = "" <;> by_cases h2 : common.Package = "" <;>
      by_cases h3 : common.Repo = "" <;> simp [h1, h2, h3, n1.symm, n3]
  · rw [configCheck_lines]
    by_cases h1 : common.Root = "" <;> by_cases h2 : common.Package = "" <;>
      by_cases h3 : common.Repo = "" <;> simp [h1, h2, h3, n2.symm, n3.symm]
  · rw [configCheck_lines]
    by_cases h1 : common.Root = "" <;> by_cases h2 : common.Package = "" <;>
      by_cases h3 : common.Repo = "" <;> simp [h1, h2, h3]
  · intro L set registry fs hok hc hfail
    subst hc
    have hmiss := (configCheck_fail _).1 hfail
    rw [main_of_missing L set registry fs hok hmiss]
    exact ⟨rfl, rfl⟩

theorem configCheck_reports_each_missing_field_witness :
    (configCheck (FlagSet.common unix { sampleFlags "setup" with root := "", repo := "" })).1 =
      [msgRoot, msgRepo] ∧
    (main unix { sampleFlags "setup" with root := "", repo := "" } sampleRegistry
      fsWithManifest).stderr =
      (configCheck (FlagSet.common unix { sampleFlags "setup" with root := "", repo := "" })).1 :=
  ⟨by decide,
   ((configCheck_reports_each_missing_field
      (FlagSet.common unix { sampleFlags "setup" with root := "", repo := "" })).2.2.2.2.2.2
      unix { sampleFlags "setup" with root := "", repo := "" } sampleRegistry fsWithManifest
      rfl rfl (by decide)).1⟩

/-! ## Matching a command -/

/-- C7: two requested names that are equal under case folding are dispatched
alike, whatever the registry: the same calls are made on the same command (or
none for both), and the runs end with the same status, file system and file
operations. -/
theorem main_case_insensitive (L : StdLib) (set : FlagSet) (registry : Common → List Command)
    (fs : FS) (a b : String) (rest : List String) (h : EqualFold L a b = true) :
    (main L { set with Args := a :: rest } registry fs).calls =
        (main L { set with Args := b :: rest } registry fs).calls ∧
      (main L { set with Args := a :: rest } registry fs).status =
        (main L { set with Args := b :: rest } registry fs).status ∧
      (main L { set with Args := a :: rest } registry fs).fs =
        (main L { set with Args := b :: rest } registry fs).fs ∧
      (main L { set with Args := a :: rest } registry fs).ops =
        (main L { set with Args := b :: rest } registry fs).ops := by
  have hcase : (∃ e, set.err = some e) ∨ set.err = none := by
    cases set.err with
    | some e => exact Or.inl ⟨e, rfl⟩
    | none => exact Or.inr rfl
  rcases hcase with ⟨e, herr⟩ | herr
  · rw [main_of_flag_error L { set with Args := a :: rest } registry fs e herr,
      main_of_flag_error L { set with Args := b :: rest } registry fs e herr]
    exact ⟨rfl, rfl, rfl, rfl⟩
  · by_cases hcfg : set.root = "" ∨ set.pkg = "" ∨ set.repo = ""
    · rw [main_of_missing L { set with Args := a :: rest } registry fs herr hcfg,
        main_of_missing L { set with Args := b :: rest } registry fs herr hcfg]
      exact ⟨rfl, rfl, rfl, rfl⟩
    · have hroot : set.root ≠ "" := fun e => hcfg (Or.inl e)
      have hpkg : set.pkg ≠ "" := fun e => hcfg (Or.inr (Or.inl e))
      have hrepo : set.repo ≠ "" := fun e => hcfg (Or.inr (Or.inr e))
      rw [main_of_config L { set with Args := a :: rest } registry fs herr hroot hpkg hrepo,
        main_of_config L { set with Args := b :: rest } registry fs herr hroot hpkg hrepo]
      have hd := dispatch_congr L h rest fs (registry (set.common L)) 0
      simp only [List.headD_cons, List.drop_succ_cons, List.drop_zero, FlagSet.common] at hd ⊢
      rw [hd]
      cases dispatch L b rest fs 0 (registry
        { Root := set.root, RootAbs := L.Abs set.root, Package := set.pkg, Repo := set.repo }) with
      | some p => exact ⟨rfl, rfl, rfl, rfl⟩
      | none => exact ⟨rfl, rfl, rfl, rfl⟩

theorem main_case_insensitive_witness :
    EqualFold unix "Setup" "SETUP" = true ∧
    (main unix (sampleFlags "Setup") sampleRegistry fsWithManifest).calls = [.parse 0 [], .exec 0] ∧
    (main unix (sampleFlags "Setup") sampleRegistry fsWithManifest).calls =
      (main unix (sampleFlags "SETUP") sampleRegistry fsWithManifest).calls :=
  ⟨by decide, by decide,
   (main_case_insensitive unix (sampleFlags "setup") sampleRegistry fsWithManifest
      "Setup" "SETUP" [] (by decide)).1⟩

/-- C8: with a full configuration, when the command at position `i` of the
registry is the first whose name equals the requested name under case
folding, `main` calls `Parse` on that command and, if parsing succeeds, runs
it through the wrapper; every call made is on position `i`, and `Exec` is
called at most once. When parsing fails the command is not run and the
process ends with status 1. -/
theorem main_runs_first_match (L : StdLib) (set : FlagSet) (registry : Common → List Command)
    (fs : FS) (i : Nat) (cmd : Command)
    (hok : set.err = none) (hroot : set.root ≠ "") (hpkg : set.pkg ≠ "") (hrepo : set.repo ≠ "")
    (hi : (registry (set.common L))[i]? = some cmd)
    (hmatch : EqualFold L (set.Args.headD "") cmd.Name = true)
    (hfirst : ∀ j c, j < i → (registry (set.common L))[j]? = some c →
      EqualFold L (set.Args.headD "") c.Name = false) :
    (∀ c ∈ (main L set registry fs).calls, c.index = i) ∧
    ((main L set registry fs).calls.filter Call.isExec).length ≤ 1 ∧
    (cmd.Parse (set.Args.drop 1) = none →
      (main L set registry fs).calls = [.parse i (set.Args.drop 1), .exec i] ∧
      (main L set registry fs).fs = (Exec L cmd (set.Args.drop 1) fs).out.fs ∧
      (main L set registry fs).status = (Exec L cmd (set.Args.drop 1) fs).out.status ∧
      (main L set registry fs).ops = (Exec L cmd (set.Args.drop 1) fs).ops ∧
      (main L set registry fs).stderr = []) ∧
    (∀ e, cmd.Parse (set.Args.drop 1) = some e →
      (main L set registry fs).calls = [.parse i (set.Args.drop 1)] ∧
      (main L set registry fs).fs = fs ∧
      (main L set registry fs).status = .exit 1 ∧
      (main L set registry fs).stderr = ["invalid args " ++ e]) := by
  have hmain : main L set registry fs = invoke L i cmd (set.Args.drop 1) fs := by
    rw [main_of_config L set registry fs hok hroot hpkg hrepo,
      dispatch_first L _ _ fs _ 0 i cmd hi hmatch hfirst]
    simp
  rw [hmain]
  generalize set.Args.drop 1 = args
  cases hp : cmd.Parse args with
  | none => simp [invoke, hp, Call.index, Call.isExec]
  | some e => simp [invoke, hp, Call.index, Call.isExec]

theorem main_runs_first_match_witness :
    (sampleRegistry ((sampleFlags "UPDATE").common unix))[1]? = some (cmdRemove sampleCommon) ∧
    (main unix (sampleFlags "UPDATE") sampleRegistry fsWithManifest).calls = [.parse 1 [], .exec 1] :=
  ⟨rfl,
   ((main_runs_first_match unix (sampleFlags "UPDATE") sampleRegistry fsWithManifest 1
      (cmdRemove sampleCommon) rfl (by decide) (by decide) (by decide) rfl (by decide)
      (by
        intro j c hj hc
        have hj0 : j = 0 := by omega
        subst hj0
        have hc0 : c = cmdRewrite sampleCommon := by
          have : some (cmdRewrite sampleCommon) = some c := hc
          exact (Option.some.inj this).symm
        subst hc0
        decide)).2.2.1 rfl).1⟩

/-- C9: with a full configuration, when the requested name equals no registered
name under case folding, no command is parsed or run, the file system is left
alone, standard error holds the line naming the unknown command, the line
`supported:`, and then one line per registered command, in registration order,
made of a tab and the command's name; the process ends with status 1. -/
theorem main_unknown_command (L : StdLib) (set : FlagSet) (registry : Common → List Command)
    (fs : FS)
    (hok : set.err = none) (hroot : set.root ≠ "") (hpkg : set.pkg ≠ "") (hrepo : set.repo ≠ "")
    (hno : ∀ cmd ∈ registry (set.common L), EqualFold L (set.Args.headD "") cmd.Name = false) :
    (main L set registry fs).calls = [] ∧
    (main L set registry fs).ops = [] ∧
    (main L set registry fs).fs = fs ∧
    (main L set registry fs).status = .exit 1 ∧
    (main L set registry fs).stderr =
      ["unknown command: " ++ set.Args.headD "", "supported:"] ++
        (registry (set.common L)).map (fun cmd => "\t" ++ cmd.Name) := by
  rw [main_of_config L set registry fs hok hroot hpkg hrepo,
    dispatch_none L _ _ fs _ 0 hno]
  exact ⟨rfl, rfl, rfl, rfl, rfl⟩

theorem main_unknown_command_witness :
    (main unix (sampleFlags "cache") sampleRegistry fsWithManifest).status = .exit 1 ∧
    (main unix (sampleFlags "cache") sampleRegistry fsWithManifest).stderr =
      ["unknown command: cache", "supported:", "\tsetup", "\tupdate", "\tistidy", "\thash",
       "\tzipvendor"] :=
  ⟨(main_unknown_command unix (sampleFlags "cache") sampleRegistry fsWithManifest
      rfl (by decide) (by decide) (by decide) (by decide)).2.2.2.1,
   by decide⟩

/-- C10, as stated, fails: with no positional argument the requested name is
empty, yet in a registry holding a command whose name is empty that command
matches, is parsed and is run, and the process ends with status 0 without an
unknown-command report. -/
theorem main_empty_name_matches_nameless_command :
    ({ sampleFlags "" with Args := [] } : FlagSet).Args.headD "" = "" ∧
    (main unix { sampleFlags "" with Args := [] } namelessRegistry fsWithManifest).calls =
      [.parse 1 [], .exec 1] ∧
    (main unix { sampleFlags "" with Args := [] } namelessRegistry fsWithManifest).status = .exit 0 ∧
    (main unix { sampleFlags "" with Args := [] } namelessRegistry fsWithManifest).stderr = [] := by
  refine ⟨rfl, by decide, by decide, by decide⟩

/-- C10, amended: with a full configuration and a registry in which no command
has an empty name, an empty requested name matches nothing: no command is
parsed or run, the file system is left alone, the unknown-command report with
the list of registered names is printed and the process ends with status 1. -/
theorem main_empty_name_no_match (L : StdLib) (set : FlagSet) (registry : Common → List Command)
    (fs : FS)
    (hok : set.err = none) (hroot : set.root ≠ "") (hpkg : set.pkg ≠ "") (hrepo : set.repo ≠ "")
    (hempty : set.Args.headD "" = "")
    (hnames : ∀ cmd ∈ registry (set.common L), cmd.Name ≠ "") :
    (main L set registry fs).calls = [] ∧
    (main L set registry fs).ops = [] ∧
    (main L set registry fs).fs = fs ∧
    (main L set registry fs).status = .exit 1 ∧
    (main L set registry fs).stderr =
      ["unknown command: ", "supported:"] ++
        (registry (set.common L)).map (fun cmd => "\t" ++ cmd.Name) := by
  have hno : ∀ cmd ∈ registry (set.common L), EqualFold L (set.Args.headD "") cmd.Name = false := by
    intro cmd hm
    cases hf : EqualFold L (set.Args.headD "") cmd.Name with
    | false => rfl
    | true =>
      rw [hempty] at hf
      exact absurd (EqualFold_empty L hf) (hnames cmd hm)
  rw [main_of_config L set registry fs hok hroot hpkg hrepo,
    dispatch_none L _ _ fs _ 0 hno, hempty]
  exact ⟨rfl, rfl, rfl, rfl, rfl⟩

theorem main_empty_name_no_match_witness :
    (main unix { sampleFlags "" with Args := [] } sampleRegistry fsWithManifest).calls = [] ∧
    (main unix { sampleFlags "" with Args := [] } sampleRegistry fsWithManifest).status = .exit 1 :=
  ⟨(main_empty_name_no_match unix { sampleFlags "" with Args := [] } sampleRegistry fsWithManifest
      rfl (by decide) (by decide) (by decide) rfl (by decide)).1,
   (main_empty_name_no_match unix { sampleFlags "" with Args := [] } sampleRegistry fsWithManifest
      rfl (by decide) (by decide) (by decide) rfl (by decide)).2.2.2.1⟩

end Gospace
